import Mathlib

/-!
Verification development for the Chart Resolution & Verified Acquisition
subsystem of the walm repository (vendored helm `pkg/downloader/chart_downloader.go`).

The Go source is shallowly embedded as executable Lean definitions:
* URLs are a structure mirroring the fields of `net/url.URL` that the
  downloader reads (`Scheme`, `Host`, `Path`, `RawQuery`); the `net/url`
  operations the source calls (`Parse`, `IsAbs`, `Query`, `Values.Encode`,
  `ResolveReference`, `String`) are modelled for that fragment (no userinfo,
  fragments, or percent-escaping, which the downloader never exercises).
* External collaborators (registry file, index files, index lookup, the
  `urlutil.Equal` normalised comparison, network transports, the filesystem
  and the provenance verifier) are passed in explicitly as data/functions,
  exactly at the call sites where the Go code invokes them.
* Fallible Go calls returning `(T, error)` become `Except`/`Option` values;
  Go `nil` pointers become `Option`.
-/

deriving instance DecidableEq for Except

namespace Downloader

/-- Whether the first character list is a prefix of the second (structural,
so that closed instances reduce in the kernel). -/
def isPre : List Char → List Char → Bool
  | [], _ => true
  | _ :: _, [] => false
  | a :: as, b :: bs => a = b && isPre as bs

/-- Fuel-driven splitter over character lists implementing the semantics of
Go `strings.Split` for a non-empty separator; the fuel is an upper bound on
the number of characters consumed, making the recursion structural. -/
def splitListAux (sep : List Char) : Nat → List Char → List (List Char)
  | _, [] => [[]]
  | 0, l => [l]
  | f + 1, c :: cs =>
    if sep ≠ [] ∧ isPre sep (c :: cs) then
      [] :: splitListAux sep f ((c :: cs).drop sep.length)
    else
      match splitListAux sep f cs with
      | [] => [[c]]
      | h :: t => (c :: h) :: t

/-- Model of Go `strings.Split s sep` for non-empty `sep`: every maximal
piece between occurrences of the separator, empty pieces included. -/
def splitStr (s sep : String) : List String :=
  (splitListAux sep.toList s.toList.length s.toList).map String.mk

/-- Inverse of splitting: join the pieces with the separator
(the `strings.Join` used implicitly when reassembling remainders). -/
def joinSep (sep : String) : List String → String
  | [] => ""
  | [x] => x
  | x :: xs => x ++ sep ++ joinSep sep xs

/-- Whether `s` starts with `pre` (Go `strings.HasPrefix`). -/
def strStartsWith (s pre : String) : Bool := isPre pre.toList s.toList

/-- Whether `s` ends with `suf` (Go `strings.HasSuffix`). -/
def strEndsWith (s suf : String) : Bool := isPre suf.toList.reverse s.toList.reverse

/-- Drop the last `n` characters of `s`. -/
def strDropRight (s : String) (n : Nat) : String :=
  String.mk (s.toList.take (s.toList.length - n))

/-- Drop the first `n` characters of `s`. -/
def strDrop (s : String) (n : Nat) : String := String.mk (s.toList.drop n)

/-- Model of Go `strings.TrimSuffix s suf`: drop one trailing occurrence of
`suf` when present. -/
def trimSuffix (s suf : String) : String :=
  if strEndsWith s suf then strDropRight s suf.toList.length else s

/-- Model of Go `strings.TrimPrefix`: drop one leading occurrence when present. -/
def trimLead (s pre : String) : String :=
  if strStartsWith s pre then strDrop s pre.toList.length else s

/-- Model of Go `strings.Cut s sep` (before, after) at the first occurrence of
`sep`; `(s, "")` when `sep` is absent. -/
def cutStr (s sep : String) : String × String :=
  match splitStr s sep with
  | [] => (s, "")
  | a :: rest => (a, joinSep sep rest)

/-- Model of Go `strings.SplitN s sep 2`: one piece when `sep` is absent,
otherwise the part before the first `sep` and the remainder. -/
def splitN2 (s sep : String) : List String :=
  match splitStr s sep with
  | [] => [s]
  | a :: rest => if rest = [] then [a] else [a, joinSep sep rest]

/-- URL structure: the fields of Go `net/url.URL` that the downloader reads. -/
structure URL where
  scheme : String
  host : String
  path : String
  rawQuery : String
deriving DecidableEq

/-- Model of Go `net/url.Parse` for the fragment the downloader exercises:
`scheme://host/path?query` and relative `path?query` forms.  Go rejects URLs
containing ASCII control characters; userinfo, fragments and percent-escapes
are outside the modelled fragment. -/
def parseURL (s : String) : Option URL :=
  if s.toList.any (fun c => c.toNat < 32 ∨ c.toNat = 127) then none
  else
    let bq := cutStr s "?"
    if (splitStr bq.1 "://").length ≥ 2 then
      let sr := cutStr bq.1 "://"
      let parts := splitStr sr.2 "/"
      let host := parts.headD ""
      let path := if parts.length ≤ 1 then "" else "/" ++ joinSep "/" (parts.drop 1)
      some ⟨sr.1, host, path, bq.2⟩
    else
      some ⟨"", "", bq.1, bq.2⟩

/-- Model of Go `url.URL.IsAbs`: a URL is absolute when its scheme is non-empty. -/
def URL.isAbs (u : URL) : Bool := u.scheme ≠ ""

/-- Model of Go `url.URL.String` for the modelled fragment. -/
def urlString (u : URL) : String :=
  (if u.scheme = "" then "" else u.scheme ++ "://" ++ u.host)
    ++ u.path
    ++ (if u.rawQuery = "" then "" else "?" ++ u.rawQuery)

/-- Helper for Go `net/url.resolvePath`: `base[:strings.LastIndex(base,"/")+1]`,
i.e. the base path up to and including its last slash (empty when no slash). -/
def upToLastSlash (s : String) : String :=
  let parts := splitStr s "/"
  if parts.length ≤ 1 then "" else joinSep "/" parts.dropLast ++ "/"

/-- Dot-segment removal step of Go `net/url.resolvePath`: split on `/`,
drop `.` segments, let `..` pop, re-add a trailing slash when the final
segment was a dot segment, and force a leading slash. -/
def removeDotSegments (full : String) : String :=
  if full = "" then ""
  else
    let src := splitStr full "/"
    let dst := src.foldl
      (fun d e => if e = "." then d else if e = ".." then d.dropLast else d ++ [e]) []
    let dst := if src.getLastD "" = "." ∨ src.getLastD "" = ".." then dst ++ [""] else dst
    "/" ++ trimLead (joinSep "/" dst) "/"

/-- Model of Go `net/url.resolvePath base ref`. -/
def resolvePath (base ref : String) : String :=
  let full :=
    if ref = "" then base
    else if ¬ strStartsWith ref "/" then upToLastSlash base ++ ref
    else ref
  removeDotSegments full

/-- Model of Go `url.URL.ResolveReference` for the modelled fragment
(no userinfo, opaque part or fragment): a reference carrying a scheme or host
replaces the base; otherwise host comes from the base, the path is resolved
with `resolvePath`, and the query is the reference's except when the reference
has neither path nor query. -/
def resolveReference (base ref : URL) : URL :=
  let scheme := if ref.scheme = "" then base.scheme else ref.scheme
  if ref.scheme ≠ "" ∨ ref.host ≠ "" then
    ⟨scheme, ref.host, resolvePath ref.path "", ref.rawQuery⟩
  else
    let rq := if ref.path = "" ∧ ref.rawQuery = "" then base.rawQuery else ref.rawQuery
    ⟨scheme, base.host, resolvePath base.path ref.path, rq⟩

/-- Model of Go `url.ParseQuery` on the modelled fragment (no unescaping):
split on `&`, skip empty segments, cut each at the first `=`. -/
def parseQuery (s : String) : List (String × String) :=
  (splitStr s "&").foldr
    (fun seg acc =>
      if seg = "" then acc
      else
        match splitStr seg "=" with
        | [] => acc
        | k :: rest => (k, joinSep "=" rest) :: acc)
    []

/-- Insertion into a string list sorted in byte order (for `Values.Encode`). -/
def insertStr (x : String) : List String → List String
  | [] => [x]
  | y :: ys => if x ≤ y then x :: y :: ys else y :: insertStr x ys

/-- Insertion sort on strings (Go `Values.Encode` sorts its keys). -/
def sortStrs : List String → List String
  | [] => []
  | x :: xs => insertStr x (sortStrs xs)

/-- First-occurrence deduplication of a key list. -/
def dedupKeys (l : List String) : List String :=
  l.foldl (fun acc k => if acc.contains k then acc else acc ++ [k]) []

/-- Model of Go `url.Values.Encode` over the association-list query model:
keys sorted, each key's values in their original order, joined with `&`. -/
def encodeQuery (ps : List (String × String)) : String :=
  let keys := sortStrs (dedupKeys (ps.map Prod.fst))
  joinSep "&"
    (keys.foldr
      (fun k acc => ((ps.filter (fun p => p.1 == k)).map (fun p => k ++ "=" ++ p.2)) ++ acc)
      [])

/-- Model of Go `path/filepath.Base`: empty path gives `.`, trailing slashes
are stripped, the last element is returned, an all-slash path gives `/`. -/
def filepathBase (p : String) : String :=
  if p = "" then "."
  else
    let q := String.mk ((p.toList.reverse.dropWhile (fun c => c = '/')).reverse)
    if q = "" then "/" else (splitStr q "/").getLastD ""

/-- Model of Go `path/filepath.Join dest name` for the two-argument use in
`DownloadTo` (the `Clean` normalisation is not exercised by the claims). -/
def filepathJoin (dir name : String) : String :=
  if dir = "" then name else dir ++ "/" ++ name

/-- Downloader errors.  Go compares errors against the sentinel
`ErrNoOwnerRepo` by identity; every other error in this file is a message
(`errors.Errorf` / `errors.Wrap`), so the sentinel is a distinct constructor. -/
inductive DErr where
  | noOwnerRepo
  | msg (s : String)
deriving DecidableEq

/-- Message text of an error: the sentinel's fixed text, or the message. -/
def DErr.string : DErr → String
  | .noOwnerRepo => "could not find a repo containing the given URL"
  | .msg s => s

/-- Model of `pkg/errors.Wrap err m`, whose `Error()` is `m ++ ": " ++ err`. -/
def wrapErr (e : DErr) (m : String) : DErr := .msg (m ++ ": " ++ e.string)

/-- Model of `repo.Entry`: one registered repository (name, base URL,
credentials; the TLS file names are carried opaquely by the collaborators and
are not read by the embedded code). -/
structure Entry where
  name : String
  url : String
  username : String
  password : String
deriving DecidableEq

/-- Model of `getter.HTTPGetter`: the transport the downloader constructs;
`SetCredentials` overwrites the two credential fields. -/
structure HTTPGetter where
  url : String
  username : String
  password : String
deriving DecidableEq

/-- Model of `repo.ChartRepository` as read by the downloader: the (nilable)
`Config` entry and the (nilable) `Client` transport. -/
structure ChartRepository where
  config : Option Entry
  client : Option HTTPGetter
deriving DecidableEq

/-- Go `r.Config.Name` (the empty string stands for the nil-pointer panic
case, which the embedded paths never reach). -/
def ChartRepository.configName (r : ChartRepository) : String :=
  match r.config with
  | some e => e.name
  | none => ""

/-- Model of `repo.ChartVersion` as read by the downloader: its candidate
download URLs. -/
structure ChartVersion where
  urls : List String
deriving DecidableEq

/-- Model of `repo.IndexFile` as read by the downloader: `Entries`, the chart
name → version-entries mapping iterated by `scanReposForURL`. -/
structure IndexFile where
  entries : List (String × List ChartVersion)
deriving DecidableEq

/-- The four-valued `VerificationStrategy` enumeration
(`VerifyNever`, `VerifyIfPossible`, `VerifyAlways`, `VerifyLater`). -/
inductive VerificationStrategy where
  | never
  | ifPossible
  | always
  | later
deriving DecidableEq

/-- Integer value of each strategy constant (Go declares them with `iota`),
used for the source's ordered comparison `c.Verify > VerifyNever`. -/
def VerificationStrategy.toNat : VerificationStrategy → Nat
  | .never => 0
  | .ifPossible => 1
  | .always => 2
  | .later => 3

/-- Model of the `ChartDownloader` configuration fields the embedded code
reads (`Out`, `HelmHome` and `Getters` are carried by the collaborators). -/
structure ChartDownloader where
  verify : VerificationStrategy
  keyring : String
  username : String
  password : String
deriving DecidableEq

/-- External read-only collaborators of the resolver, one field per call site
in the source: `repo.LoadFile` (the registry), `repo.LoadIndexFile` keyed by
`c.HelmHome.CacheIndex(name)`, `IndexFile.Get(chart, version)` and the
`urlutil.Equal` normalised URL comparison. -/
structure Env where
  repoFile : Except DErr (List Entry)
  loadIndex : String → Except DErr IndexFile
  indexGet : IndexFile → String → String → Except DErr ChartVersion
  urlEqual : String → String → Bool

/-- Embedding of `getRepoCredentials` (chart_downloader.go:265-277): start
from the caller-level credentials; when the repository and its config are
non-nil, each still-empty field falls back to the config's value. -/
def getRepoCredentials (c : ChartDownloader) (r : Option ChartRepository) :
    String × String :=
  match r with
  | none => (c.username, c.password)
  | some rr =>
    match rr.config with
    | none => (c.username, c.password)
    | some cfg =>
      (if c.username = "" then cfg.username else c.username,
       if c.password = "" then cfg.password else c.password)

/-- Modelled from the spec: `repo.NewChartRepository` is vendored helm code
not under src/.  Per §2 (Transport Factory) and §6 it parses the entry's base
URL, fails when no protocol handler exists for its scheme, and otherwise
returns the repository with a client transport bound to the entry's base URL;
username/password binding is performed separately by the embedded
`SetCredentials` calls (§4.1a). -/
def newChartRepository (e : Entry) : Except DErr ChartRepository :=
  match parseURL e.url with
  | none => .error (.msg ("invalid chart URL format: " ++ e.url))
  | some pu =>
    if pu.scheme = "" then
      .error (.msg ("could not find protocol handler for: " ++ e.url))
    else
      .ok ⟨some e, some ⟨e.url, "", ""⟩⟩

/-- Embedding of `pickChartRepositoryConfigByName` (chart_downloader.go:313-323):
first entry with the given name; an empty URL on the named entry and an
absent name are two distinct errors. -/
def pickChartRepositoryConfigByName (name : String) :
    List Entry → Except DErr Entry
  | [] => .error (.msg ("repo " ++ name ++ " not found"))
  | rc :: rest =>
    if rc.name = name then
      if rc.url = "" then .error (.msg ("no URL found for repository " ++ name))
      else .ok rc
    else pickChartRepositoryConfigByName name rest

/-- The triple-nested loop body of `scanReposForURL` (chart_downloader.go:357-365):
does any candidate URL of any version of any chart in the index compare equal
(under `urlutil.Equal`) to the given URL? -/
def indexHasURL (env : Env) (u : String) (i : IndexFile) : Bool :=
  i.entries.any (fun ent => ent.2.any (fun ver => ver.urls.any (fun dl => env.urlEqual u dl)))

/-- Embedding of `scanReposForURL` (chart_downloader.go:343-369): walk the
registry entries in order; building the repository or loading its index fails
the scan (the index failure wrapped with the refresh hint); the first entry
whose index contains the URL is returned; exhaustion yields the
`ErrNoOwnerRepo` sentinel. -/
def scanReposForURL (env : Env) (u : String) : List Entry → Except DErr Entry
  | [] => .error .noOwnerRepo
  | rc :: rest =>
    match newChartRepository rc with
    | .error e => .error e
    | .ok r =>
      match env.loadIndex r.configName with
      | .error e => .error (wrapErr e "no cached repo found. (try \x27helm repo update\x27)")
      | .ok i =>
        if indexHasURL env u i then .ok rc else scanReposForURL env u rest

/-- Result quadruple of `ResolveChartVersionAndGetRepo`
(`*url.URL`, `*repo.ChartRepository`, `*getter.HTTPGetter`, `error`). -/
structure ResolveResult where
  u : Option URL
  r : Option ChartRepository
  g : Option HTTPGetter
  err : Option DErr
deriving DecidableEq

/-- Embedding of `ResolveChartVersionAndGetRepo` (chart_downloader.go:156-260).
Control flow mirrors the source line by line: parse the reference, load the
registry, build the plain HTTP getter from the reference; an absolute
reference (scheme, host and path all non-empty) goes through the owner scan —
the `ErrNoOwnerRepo` outcome builds an empty repository sharing the getter,
sets the merged credentials on it and returns the quadruple still carrying
the sentinel error; a found owner is rebuilt with `NewChartRepository` and
returned with the untouched getter.  A shorthand reference is split at the
first slash, its repository entry picked by name, credentials merged onto the
getter, the index loaded and queried, and the first candidate URL taken —
rebased against the repository base URL (trailing slash trimmed, one slash
appended, reference resolved, the base query re-encoded onto the result, and
a fresh getter bound to the repository base URL with merged credentials)
when relative. -/
def resolveChartVersionAndGetRepo (c : ChartDownloader) (env : Env)
    (ref version : String) : ResolveResult :=
  match parseURL ref with
  | none => ⟨none, none, none, some (.msg ("invalid chart URL format: " ++ ref))⟩
  | some u =>
    match env.repoFile with
    | .error e => ⟨some u, none, none, some e⟩
    | .ok repos =>
      let g : HTTPGetter := ⟨ref, "", ""⟩
      if u.scheme ≠ "" ∧ u.host ≠ "" ∧ u.path ≠ "" then
        match scanReposForURL env ref repos with
        | .error .noOwnerRepo =>
          let creds := getRepoCredentials c (some ⟨none, some g⟩)
          let g2 : HTTPGetter := ⟨ref, creds.1, creds.2⟩
          ⟨some u, some ⟨none, some g2⟩, some g2, some .noOwnerRepo⟩
        | .error e => ⟨some u, none, none, some e⟩
        | .ok rc =>
          match newChartRepository rc with
          | .error e => ⟨some u, none, some g, some e⟩
          | .ok r => ⟨some u, some r, some g, none⟩
      else
        match splitN2 u.path "/" with
        | [repoName, chartName] =>
          (match pickChartRepositoryConfigByName repoName repos with
           | .error e => ⟨some u, none, none, some e⟩
           | .ok rc =>
             match newChartRepository rc with
             | .error e => ⟨some u, none, none, some e⟩
             | .ok r =>
               let creds := getRepoCredentials c (some r)
               let g : HTTPGetter := ⟨ref, creds.1, creds.2⟩
               match env.loadIndex r.configName with
               | .error e =>
                 ⟨some u, some r, some g,
                  some (wrapErr e "no cached repo found. (try \x27helm repo update\x27)")⟩
               | .ok i =>
                 match env.indexGet i chartName version with
                 | .error e =>
                   ⟨some u, some r, some g,
                    some (wrapErr e ("chart \x22" ++ chartName ++ "\x22 matching " ++ version
                      ++ " not found in " ++ r.configName ++ " index. (try \x27helm repo update\x27)"))⟩
                 | .ok cv =>
                   match cv.urls with
                   | [] =>
                     ⟨some u, some r, some g,
                      some (.msg ("chart \x22" ++ ref ++ "\x22 has no downloadable URLs"))⟩
                   | url0 :: _ =>
                     match parseURL url0 with
                     | none =>
                       ⟨none, some r, some g, some (.msg ("invalid chart URL format: " ++ ref))⟩
                     | some u2 =>
                       if u2.scheme ≠ "" then ⟨some u2, some r, some g, none⟩
                       else
                         match parseURL rc.url with
                         | none =>
                           ⟨none, some r, none,
                            some (.msg ("invalid chart URL format: " ++ rc.url))⟩
                         | some repoURL =>
                           let q := parseQuery repoURL.rawQuery
                           let repoURL2 := { repoURL with path := trimSuffix repoURL.path "/" ++ "/" }
                           let u3 := resolveReference repoURL2 u2
                           let u4 := { u3 with rawQuery := encodeQuery q }
                           let creds := getRepoCredentials c (some r)
                           let g2 : HTTPGetter := ⟨rc.url, creds.1, creds.2⟩
                           ⟨some u4, some r, some g2, none⟩)
        | _ =>
          ⟨some u, none, none,
           some (.msg ("non-absolute URLs should be in form of repo_name/path_to_chart, got: "
             ++ urlString u))⟩

/-- Model of `provenance.Verification` as read here: digest and signer. -/
structure Verification where
  fileHash : String
  signedBy : String
deriving DecidableEq

/-- The zero value `&provenance.Verification\x7b\x7d` DownloadTo starts from. -/
def emptyVerification : Verification := ⟨"", ""⟩

/-- Result triple of `DownloadTo` (`string`, `*provenance.Verification`,
`error`); the verification pointer is nilable. -/
structure DownloadResult where
  path : String
  ver : Option Verification
  err : Option DErr
deriving DecidableEq

/-- Observable external actions of one `DownloadTo` run, in order: the archive
fetch and write, the provenance fetch and write, the `VerifyChart` call, and
the warning printed to `c.Out`. -/
inductive Event where
  | fetchArchive (url : String)
  | writeArchive (path : String)
  | fetchProv (url : String)
  | writeProv (path : String)
  | verifyCall (path keyring : String)
  | warn (m : String)
deriving DecidableEq

/-- External effectful collaborators of `DownloadTo`, one field per call site:
`Get` on a transport (used both for the archive via the returned getter and
for the provenance file via `r.Client`), `ioutil.WriteFile`, and the
`VerifyChart` provenance verification (itself built on `os.Stat` and the
keyring, all outside this subsystem). -/
structure Effects where
  get : HTTPGetter → String → Except DErr String
  writeFile : String → String → Option DErr
  verifyChart : String → String → Except DErr Verification

/-- Embedding of the body of `DownloadTo` after a successful resolution
(chart_downloader.go:94-130): fetch the archive with the returned getter,
persist it under the URL's base file name, then — when the strategy exceeds
`VerifyNever` — fetch `url + ".prov"` with the repository client (failure is
fatal exactly under `VerifyAlways`, otherwise a warning and a successful
return with the empty verification), persist it, and — when the strategy is
not `VerifyLater` — run `VerifyChart`, whose failure is returned as is with
the nil verification that accompanies it. -/
def downloadResolved (c : ChartDownloader) (eff : Effects) (ref : String)
    (u : URL) (r : ChartRepository) (g : HTTPGetter) (dest : String) :
    List Event × DownloadResult :=
  let us := urlString u
  match eff.get g us with
  | .error e => ([.fetchArchive us], ⟨"", none, some e⟩)
  | .ok data =>
    let destfile := filepathJoin dest (filepathBase u.path)
    match eff.writeFile destfile data with
    | some e => ([.fetchArchive us, .writeArchive destfile], ⟨destfile, none, some e⟩)
    | none =>
      if c.verify.toNat > 0 then
        match r.client with
        | none =>
          ([.fetchArchive us, .writeArchive destfile],
           ⟨destfile, none, some (.msg "nil pointer dereference")⟩)
        | some rcl =>
          let provURL := us ++ ".prov"
          match eff.get rcl provURL with
          | .error e =>
            if c.verify = .always then
              ([.fetchArchive us, .writeArchive destfile, .fetchProv provURL],
               ⟨destfile, some emptyVerification,
                some (.msg ("failed to fetch provenance \x22" ++ provURL ++ "\x22"))⟩)
            else
              ([.fetchArchive us, .writeArchive destfile, .fetchProv provURL,
                .warn ("WARNING: Verification not found for " ++ ref ++ ": " ++ e.string)],
               ⟨destfile, some emptyVerification, none⟩)
          | .ok body =>
            let provfile := destfile ++ ".prov"
            match eff.writeFile provfile body with
            | some e =>
              ([.fetchArchive us, .writeArchive destfile, .fetchProv provURL, .writeProv provfile],
               ⟨destfile, none, some e⟩)
            | none =>
              if c.verify ≠ .later then
                match eff.verifyChart destfile c.keyring with
                | .error e =>
                  ([.fetchArchive us, .writeArchive destfile, .fetchProv provURL,
                    .writeProv provfile, .verifyCall destfile c.keyring],
                   ⟨destfile, none, some e⟩)
                | .ok v =>
                  ([.fetchArchive us, .writeArchive destfile, .fetchProv provURL,
                    .writeProv provfile, .verifyCall destfile c.keyring],
                   ⟨destfile, some v, none⟩)
              else
                ([.fetchArchive us, .writeArchive destfile, .fetchProv provURL,
                  .writeProv provfile],
                 ⟨destfile, some emptyVerification, none⟩)
      else
        ([.fetchArchive us, .writeArchive destfile], ⟨destfile, some emptyVerification, none⟩)

/-- Embedding of `DownloadTo` (chart_downloader.go:88-131): resolve the
reference, return any resolution error unchanged with no external action
taken, and otherwise run the download/verification body on the resolved
URL, repository and getter. -/
def downloadTo (c : ChartDownloader) (env : Env) (eff : Effects)
    (ref version dest : String) : List Event × DownloadResult :=
  let res := resolveChartVersionAndGetRepo c env ref version
  match res.err with
  | some e => ([], ⟨"", none, some e⟩)
  | none =>
    match res.u, res.r, res.g with
    | some u, some r, some g => downloadResolved c eff ref u r g dest
    | _, _, _ => ([], ⟨"", none, some (.msg "nil pointer dereference")⟩)

/-! Concrete sample registries, indexes and effect implementations used to
instantiate the theorems below on closed inputs. -/

/-- Downloader configuration with no caller-level credentials. -/
def noCredsCfg : ChartDownloader := ⟨.never, "", "", ""⟩

/-- Index lookup that finds no chart version. -/
def emptyIndexGet : IndexFile → String → String → Except DErr ChartVersion :=
  fun _ _ _ => .error (.msg "no chart version found")

/-- Index lookup returning the first version entry recorded under the chart
name (the version argument plays no role in these closed instances). -/
def findIndexGet : IndexFile → String → String → Except DErr ChartVersion :=
  fun i cn _ =>
    match i.entries.find? (fun e => e.1 == cn) with
    | some (_, v :: _) => .ok v
    | _ => .error (.msg "no chart version found")

/-- Environment with an empty registry. -/
def emptyRegistryEnv : Env :=
  ⟨.ok [], fun _ => .error (.msg "missing index"), emptyIndexGet, fun a b => a == b⟩

/-- Effects where every fetch and write succeeds and verification passes. -/
def okEffects : Effects :=
  ⟨fun _ _ => .ok "archive-bytes", fun _ _ => none, fun _ _ => .ok ⟨"sha256:aaa", "signer"⟩⟩

/-- Effects where fetching any `.prov` URL fails and everything else succeeds. -/
def noProvEffects : Effects :=
  ⟨fun _ url => if strEndsWith url ".prov" then .error (.msg "404 not found") else .ok "archive-bytes",
   fun _ _ => none, fun _ _ => .ok ⟨"sha256:aaa", "signer"⟩⟩

/-- Effects where fetches and writes succeed but verification fails. -/
def failVerifyEffects : Effects :=
  ⟨fun _ _ => .ok "archive-bytes", fun _ _ => none, fun _ _ => .error (.msg "signature mismatch")⟩

/-- Registry entry with configured repository-level credentials. -/
def credEntry : Entry := ⟨"stable", "https://example.com/repo", "repo-user", "repo-pass"⟩

/-- Index listing an absolute candidate URL under chart `foo`. -/
def absIndex : IndexFile := ⟨[("foo", [⟨["https://example.com/repo/foo-1.0.0.tgz"]⟩])]⟩

/-- Environment whose single credentialed repository's index lists the
absolute URL `https://example.com/repo/foo-1.0.0.tgz`. -/
def ownerEnv : Env :=
  ⟨.ok [credEntry],
   fun n => if n = "stable" then .ok absIndex else .error (.msg "missing index"),
   findIndexGet, fun a b => a == b⟩

/-- Registry entry whose base URL carries a query string. -/
def queryEntry : Entry := ⟨"stable", "https://example.com/repo?token=x", "", ""⟩

/-- Index listing a relative candidate URL under chart `foo`. -/
def relIndex : IndexFile := ⟨[("foo", [⟨["charts/foo-1.2.3.tgz"]⟩])]⟩

/-- Environment for shorthand resolution against a base URL with a query. -/
def relEnv : Env :=
  ⟨.ok [queryEntry],
   fun n => if n = "stable" then .ok relIndex else .error (.msg "missing index"),
   findIndexGet, fun a b => a == b⟩

/-- Index lookup whose relative candidate URL itself carries a query. -/
def relQueryIndexGet : IndexFile → String → String → Except DErr ChartVersion :=
  fun _ cn _ =>
    if cn = "foo" then .ok ⟨["charts/foo-1.2.3.tgz?extra=y"]⟩
    else .error (.msg "no chart version found")

/-- `relEnv` with the candidate URL carrying its own query string. -/
def relQueryEnv : Env :=
  ⟨.ok [queryEntry],
   fun n => if n = "stable" then .ok relIndex else .error (.msg "missing index"),
   relQueryIndexGet, fun a b => a == b⟩

/-- Index lookup listing a second mirror candidate after the first URL. -/
def mirrorIndexGet : IndexFile → String → String → Except DErr ChartVersion :=
  fun _ cn _ =>
    if cn = "foo" then .ok ⟨["charts/foo-1.2.3.tgz", "https://mirror.example/foo-1.2.3.tgz"]⟩
    else .error (.msg "no chart version found")

/-- `relEnv` with an extra trailing mirror candidate in the version entry. -/
def mirrorEnv : Env :=
  ⟨.ok [queryEntry],
   fun n => if n = "stable" then .ok relIndex else .error (.msg "missing index"),
   mirrorIndexGet, fun a b => a == b⟩

/-- Index lookup whose matched version entry has an empty candidate list. -/
def noURLIndexGet : IndexFile → String → String → Except DErr ChartVersion :=
  fun _ cn _ =>
    if cn = "foo" then .ok ⟨[]⟩ else .error (.msg "no chart version found")

/-- `relEnv` with the matched version entry listing no candidate URL. -/
def noURLEnv : Env :=
  ⟨.ok [queryEntry],
   fun n => if n = "stable" then .ok relIndex else .error (.msg "missing index"),
   noURLIndexGet, fun a b => a == b⟩

/-- Environment resolving shorthand `stable/foo` to an absolute candidate. -/
def shortAbsEnv : Env :=
  ⟨.ok [credEntry],
   fun n => if n = "stable" then .ok absIndex else .error (.msg "missing index"),
   findIndexGet, fun a b => a == b⟩

/-- First registry entry for the owner-scan instances. -/
def scanEntryOne : Entry := ⟨"one", "https://one.example/repo", "", ""⟩

/-- Second registry entry for the owner-scan instances. -/
def scanEntryTwo : Entry := ⟨"two", "https://two.example/repo", "", ""⟩

/-- Third registry entry for the owner-scan instances. -/
def scanEntryThree : Entry := ⟨"three", "https://three.example/repo", "", ""⟩

/-- The URL searched for by the owner-scan instances. -/
def scanTarget : String := "https://shared.example/foo-1.0.0.tgz"

/-- Index that lists `scanTarget`. -/
def matchIdx : IndexFile := ⟨[("foo", [⟨[scanTarget]⟩])]⟩

/-- Index that does not list `scanTarget`. -/
def noMatchIdx : IndexFile := ⟨[("bar", [⟨["https://one.example/bar-1.0.0.tgz"]⟩])]⟩

/-- Scan environment: repo `one` does not list the URL, repos `two` and
`three` both do. -/
def scanEnvA : Env :=
  ⟨.ok [scanEntryOne, scanEntryTwo, scanEntryThree],
   fun n => if n = "one" then .ok noMatchIdx else .ok matchIdx,
   emptyIndexGet, fun a b => a == b⟩

/-- Scan environment: repo `one` does not list the URL and repo `two`'s index
fails to load. -/
def scanEnvB : Env :=
  ⟨.ok [scanEntryOne, scanEntryTwo, scanEntryThree],
   fun n => if n = "one" then .ok noMatchIdx else .error (.msg "corrupt index"),
   emptyIndexGet, fun a b => a == b⟩

/-- The chart repository `NewChartRepository` builds from `scanEntryOne`. -/
def oneRepo : ChartRepository :=
  ⟨some scanEntryOne, some ⟨"https://one.example/repo", "", ""⟩⟩

/-- The chart repository `NewChartRepository` builds from `scanEntryTwo`. -/
def twoRepo : ChartRepository :=
  ⟨some scanEntryTwo, some ⟨"https://two.example/repo", "", ""⟩⟩

/-- The chart repository `NewChartRepository` builds from `queryEntry`. -/
def queryRepo : ChartRepository :=
  ⟨some queryEntry, some ⟨"https://example.com/repo?token=x", "", ""⟩⟩

/-- The chart repository `NewChartRepository` builds from `credEntry`. -/
def credRepo : ChartRepository :=
  ⟨some credEntry, some ⟨"https://example.com/repo", "", ""⟩⟩

/-- Downloader configured with the `VerifyIfPossible` strategy. -/
def ifPossibleCfg : ChartDownloader := ⟨.ifPossible, "kr", "", ""⟩

/-!  Theorems settling the claims. -/

/-- C6: for every downloader configuration and repository entry the effective
credentials are computed field-wise — the caller-level username
(respectively password) is used when non-empty and each empty field falls
back to the repository entry's configured value, so two non-empty caller
fields fully override the repository's. -/
theorem getRepoCredentials_fieldwise_merge (c : ChartDownloader) (e : Entry)
    (cl : Option HTTPGetter) :
    getRepoCredentials c (some ⟨some e, cl⟩)
      = (if c.username = "" then e.username else c.username,
         if c.password = "" then e.password else c.password) := rfl

/-- C1 (code bug evidence): for an absolute URL listed in no registered
repository's index, the resolver returns its quadruple still carrying the
`ErrNoOwnerRepo` sentinel in the error slot (owning repository unset, getter
built from the reference), so `DownloadTo`'s initial `err != nil` check
returns that error and no download step runs — resolution is fatal here,
not the claimed non-fatal success. -/
theorem noOwner_resolution_error_aborts_download :
    (resolveChartVersionAndGetRepo noCredsCfg emptyRegistryEnv
        "https://example.com/charts/foo-1.0.0.tgz" "").err = some DErr.noOwnerRepo
    ∧ (resolveChartVersionAndGetRepo noCredsCfg emptyRegistryEnv
        "https://example.com/charts/foo-1.0.0.tgz" "").r
        = some ⟨none, some ⟨"https://example.com/charts/foo-1.0.0.tgz", "", ""⟩⟩
    ∧ downloadTo noCredsCfg emptyRegistryEnv okEffects
        "https://example.com/charts/foo-1.0.0.tgz" "" "dst"
        = ([], ⟨"", none, some DErr.noOwnerRepo⟩) := by
  refine ⟨by decide, by decide, by decide⟩

/-- C2 (code bug evidence): for an absolute URL whose owner repository is
found by the scan, the resolver returns successfully with the owning
repository set, but the returned HTTP getter is the one built from the bare
reference with empty credentials — `SetCredentials`/`getRepoCredentials`
is never invoked on this path, although the repository's merged credentials
are non-empty. -/
theorem foundOwner_getter_credentials_not_bound :
    (resolveChartVersionAndGetRepo noCredsCfg ownerEnv
        "https://example.com/repo/foo-1.0.0.tgz" "").err = none
    ∧ (resolveChartVersionAndGetRepo noCredsCfg ownerEnv
        "https://example.com/repo/foo-1.0.0.tgz" "").r
        = some ⟨some credEntry, some ⟨"https://example.com/repo", "", ""⟩⟩
    ∧ (resolveChartVersionAndGetRepo noCredsCfg ownerEnv
        "https://example.com/repo/foo-1.0.0.tgz" "").g
        = some ⟨"https://example.com/repo/foo-1.0.0.tgz", "", ""⟩
    ∧ getRepoCredentials noCredsCfg (some ⟨some credEntry, none⟩)
        = ("repo-user", "repo-pass") := by
  refine ⟨by decide, by decide, by decide, by decide⟩

/-- C9: for an absolute reference (non-empty scheme, host and path) the
resolver never consults the version argument: any two version strings give
the same result. -/
theorem absolute_resolution_ignores_version (c : ChartDownloader) (env : Env)
    (ref v1 v2 : String) (u : URL)
    (hp : parseURL ref = some u)
    (hs : u.scheme ≠ "") (hh : u.host ≠ "") (hpa : u.path ≠ "") :
    resolveChartVersionAndGetRepo c env ref v1
      = resolveChartVersionAndGetRepo c env ref v2 := by
  simp only [resolveChartVersionAndGetRepo, hp]
  cases env.repoFile with
  | error e => rfl
  | ok repos => simp [hs, hh, hpa]

/-- Witness for C9 at a concrete absolute reference and two versions. -/
theorem absolute_resolution_ignores_version_witness :
    parseURL "https://example.com/repo/foo-1.0.0.tgz"
      = some ⟨"https", "example.com", "/repo/foo-1.0.0.tgz", ""⟩
    ∧ resolveChartVersionAndGetRepo noCredsCfg ownerEnv
        "https://example.com/repo/foo-1.0.0.tgz" "1.0.0"
      = resolveChartVersionAndGetRepo noCredsCfg ownerEnv
        "https://example.com/repo/foo-1.0.0.tgz" "2.0.0" :=
  ⟨by decide,
   absolute_resolution_ignores_version noCredsCfg ownerEnv
     "https://example.com/repo/foo-1.0.0.tgz" "1.0.0" "2.0.0"
     ⟨"https", "example.com", "/repo/foo-1.0.0.tgz", ""⟩
     (by decide) (by decide) (by decide) (by decide)⟩

/-- Helper: the scan walks past a prefix of repositories that build, load
their index and do not contain the URL. -/
theorem scanReposForURL_skip (env : Env) (u : String) (pre rest : List Entry)
    (hpre : ∀ e ∈ pre, ∃ r i, newChartRepository e = .ok r
      ∧ env.loadIndex r.configName = .ok i ∧ indexHasURL env u i = false) :
    scanReposForURL env u (pre ++ rest) = scanReposForURL env u rest := by
  induction pre with
  | nil => rfl
  | cons a as ih =>
    obtain ⟨r, i, h1, h2, h3⟩ := hpre a (List.mem_cons_self a as)
    simp only [List.cons_append, scanReposForURL, h1, h2, h3, Bool.false_eq_true, if_false]
    exact ih (fun e he => hpre e (List.mem_cons_of_mem a he))

/-- C7: the owner scan walks the registry in configured order past
repositories whose loaded index does not contain the URL; the first
repository whose index contains it (under the supplied normalised equality)
is returned, whatever comes after it; and a repository whose index fails to
load aborts the scan with the wrapped fatal error, which is distinct from
the `ErrNoOwnerRepo` sentinel. -/
theorem scan_returns_first_match_and_index_failure_is_fatal
    (env : Env) (u : String) (pre post : List Entry) (rc : Entry) (r : ChartRepository)
    (hpre : ∀ e ∈ pre, ∃ r' i', newChartRepository e = .ok r'
      ∧ env.loadIndex r'.configName = .ok i' ∧ indexHasURL env u i' = false)
    (hrc : newChartRepository rc = .ok r) :
    (∀ i, env.loadIndex r.configName = .ok i → indexHasURL env u i = true →
        scanReposForURL env u (pre ++ rc :: post) = .ok rc)
    ∧ (∀ e, env.loadIndex r.configName = .error e →
        scanReposForURL env u (pre ++ rc :: post)
          = .error (wrapErr e "no cached repo found. (try \x27helm repo update\x27)")
        ∧ wrapErr e "no cached repo found. (try \x27helm repo update\x27)"
            ≠ DErr.noOwnerRepo) := by
  constructor
  · intro i hi hm
    rw [scanReposForURL_skip env u pre _ hpre]
    simp [scanReposForURL, hrc, hi, hm]
  · intro e he
    refine ⟨?_, fun h => DErr.noConfusion h⟩
    rw [scanReposForURL_skip env u pre _ hpre]
    simp [scanReposForURL, hrc, he]

/-- Witness for C7: with three registered repositories where only the second
and third list the URL, the scan returns the second; with the second's index
unreadable, the scan fails with the wrapped error rather than the sentinel. -/
theorem scan_first_match_and_fatal_witness :
    newChartRepository scanEntryTwo = .ok twoRepo
    ∧ scanReposForURL scanEnvA scanTarget [scanEntryOne, scanEntryTwo, scanEntryThree]
        = .ok scanEntryTwo
    ∧ scanReposForURL scanEnvB scanTarget [scanEntryOne, scanEntryTwo, scanEntryThree]
        = .error (wrapErr (.msg "corrupt index")
            "no cached repo found. (try \x27helm repo update\x27)") :=
  ⟨by decide,
   (scan_returns_first_match_and_index_failure_is_fatal scanEnvA scanTarget
      [scanEntryOne] [scanEntryThree] scanEntryTwo twoRepo
      (by
        intro e he
        simp only [List.mem_singleton] at he
        subst he
        exact ⟨oneRepo, noMatchIdx, by decide, by decide, by decide⟩)
      (by decide)).1 matchIdx (by decide) (by decide),
   ((scan_returns_first_match_and_index_failure_is_fatal scanEnvB scanTarget
      [scanEntryOne] [scanEntryThree] scanEntryTwo twoRepo
      (by
        intro e he
        simp only [List.mem_singleton] at he
        subst he
        exact ⟨oneRepo, noMatchIdx, by decide, by decide, by decide⟩)
      (by decide)).2 (.msg "corrupt index") (by decide)).1⟩

/-- Helper: full characterisation of the resolver on the shorthand path with
a relative first candidate URL — the final URL is the relative reference
resolved against the base URL whose path got its trailing slash trimmed and
one slash appended, with the base's re-encoded query put back on, and the
returned getter is bound to the repository base URL with merged credentials. -/
theorem resolve_shorthand_relative (c : ChartDownloader) (env : Env)
    (ref version : String) (u : URL) (rn cn : String) (repos : List Entry)
    (rc : Entry) (r : ChartRepository) (i : IndexFile) (cv : ChartVersion)
    (url0 : String) (rest : List String) (cu base : URL)
    (hp : parseURL ref = some u)
    (habs : ¬(u.scheme ≠ "" ∧ u.host ≠ "" ∧ u.path ≠ ""))
    (hsplit : splitN2 u.path "/" = [rn, cn])
    (hrf : env.repoFile = .ok repos)
    (hpick : pickChartRepositoryConfigByName rn repos = .ok rc)
    (hncr : newChartRepository rc = .ok r)
    (hli : env.loadIndex r.configName = .ok i)
    (hig : env.indexGet i cn version = .ok cv)
    (hurls : cv.urls = url0 :: rest)
    (hcu : parseURL url0 = some cu)
    (hrel : cu.scheme = "")
    (hbase : parseURL rc.url = some base) :
    resolveChartVersionAndGetRepo c env ref version
      = ⟨some { resolveReference { base with path := trimSuffix base.path "/" ++ "/" } cu
                  with rawQuery := encodeQuery (parseQuery base.rawQuery) },
         some r,
         some ⟨rc.url, (getRepoCredentials c (some r)).1, (getRepoCredentials c (some r)).2⟩,
         none⟩ := by
  simp only [resolveChartVersionAndGetRepo, hp, hrf, habs, if_false, hsplit, hpick, hncr,
    hli, hig, hurls, hcu, hrel, hbase, ne_eq, not_true_eq_false, ite_false]

/-- C3: on the shorthand path with a relative first candidate URL, the final
URL is obtained by trimming any trailing slash from the repository base
URL's path, appending exactly one slash, resolving the relative reference
against it, and re-applying the base URL's (re-encoded) query parameters
onto the result. -/
theorem shorthand_relative_candidate_rebased (c : ChartDownloader) (env : Env)
    (ref version : String) (u : URL) (rn cn : String) (repos : List Entry)
    (rc : Entry) (r : ChartRepository) (i : IndexFile) (cv : ChartVersion)
    (url0 : String) (rest : List String) (cu base : URL)
    (hp : parseURL ref = some u)
    (habs : ¬(u.scheme ≠ "" ∧ u.host ≠ "" ∧ u.path ≠ ""))
    (hsplit : splitN2 u.path "/" = [rn, cn])
    (hrf : env.repoFile = .ok repos)
    (hpick : pickChartRepositoryConfigByName rn repos = .ok rc)
    (hncr : newChartRepository rc = .ok r)
    (hli : env.loadIndex r.configName = .ok i)
    (hig : env.indexGet i cn version = .ok cv)
    (hurls : cv.urls = url0 :: rest)
    (hcu : parseURL url0 = some cu)
    (hrel : cu.scheme = "")
    (hbase : parseURL rc.url = some base) :
    (resolveChartVersionAndGetRepo c env ref version).u
      = some { resolveReference { base with path := trimSuffix base.path "/" ++ "/" } cu
                 with rawQuery := encodeQuery (parseQuery base.rawQuery) } := by
  rw [resolve_shorthand_relative c env ref version u rn cn repos rc r i cv url0 rest cu base
    hp habs hsplit hrf hpick hncr hli hig hurls hcu hrel hbase]

/-- Witness for C3: candidate `charts/foo-1.2.3.tgz` under repository base
`https://example.com/repo?token=x` resolves to
`https://example.com/repo/charts/foo-1.2.3.tgz?token=x`. -/
theorem shorthand_relative_candidate_rebased_witness :
    parseURL "stable/foo" = some ⟨"", "", "stable/foo", ""⟩
    ∧ (resolveChartVersionAndGetRepo noCredsCfg relEnv "stable/foo" "1.2.3").u
        = some ⟨"https", "example.com", "/repo/charts/foo-1.2.3.tgz", "token=x"⟩
    ∧ ((resolveChartVersionAndGetRepo noCredsCfg relEnv "stable/foo" "1.2.3").u.map urlString)
        = some "https://example.com/repo/charts/foo-1.2.3.tgz?token=x" := by
  have h := shorthand_relative_candidate_rebased noCredsCfg relEnv "stable/foo" "1.2.3"
    ⟨"", "", "stable/foo", ""⟩ "stable" "foo" [queryEntry] queryEntry queryRepo relIndex
    ⟨["charts/foo-1.2.3.tgz"]⟩ "charts/foo-1.2.3.tgz" []
    ⟨"", "", "charts/foo-1.2.3.tgz", ""⟩ ⟨"https", "example.com", "/repo", "token=x"⟩
    (by decide) (by decide) (by decide) (by decide) (by decide) (by decide)
    (by decide) (by decide) (by decide) (by decide) (by decide) (by decide)
  refine ⟨by decide, ?_, ?_⟩
  · exact h.trans (by decide)
  · rw [h]
    decide

/-- C10: on the shorthand path with a relative first candidate URL, the
final URL's query is exactly the re-encoded query of the repository base
URL — whatever query string the candidate itself carried is discarded,
never merged. -/
theorem shorthand_relative_rebase_discards_candidate_query (c : ChartDownloader)
    (env : Env) (ref version : String) (u : URL) (rn cn : String)
    (repos : List Entry) (rc : Entry) (r : ChartRepository) (i : IndexFile)
    (cv : ChartVersion) (url0 : String) (rest : List String) (cu base : URL)
    (hp : parseURL ref = some u)
    (habs : ¬(u.scheme ≠ "" ∧ u.host ≠ "" ∧ u.path ≠ ""))
    (hsplit : splitN2 u.path "/" = [rn, cn])
    (hrf : env.repoFile = .ok repos)
    (hpick : pickChartRepositoryConfigByName rn repos = .ok rc)
    (hncr : newChartRepository rc = .ok r)
    (hli : env.loadIndex r.configName = .ok i)
    (hig : env.indexGet i cn version = .ok cv)
    (hurls : cv.urls = url0 :: rest)
    (hcu : parseURL url0 = some cu)
    (hrel : cu.scheme = "")
    (hbase : parseURL rc.url = some base) :
    ((resolveChartVersionAndGetRepo c env ref version).u.map (fun v => v.rawQuery))
      = some (encodeQuery (parseQuery base.rawQuery)) := by
  rw [resolve_shorthand_relative c env ref version u rn cn repos rc r i cv url0 rest cu base
    hp habs hsplit hrf hpick hncr hli hig hurls hcu hrel hbase]
  rfl

/-- Witness for C10: the candidate's own query `extra=y` is discarded and the
final query is exactly the base's `token=x`. -/
theorem rebase_discards_candidate_query_witness :
    parseURL "charts/foo-1.2.3.tgz?extra=y"
      = some ⟨"", "", "charts/foo-1.2.3.tgz", "extra=y"⟩
    ∧ ((resolveChartVersionAndGetRepo noCredsCfg relQueryEnv "stable/foo" "1.2.3").u.map
        (fun v => v.rawQuery)) = some "token=x" :=
  ⟨by decide,
   (shorthand_relative_rebase_discards_candidate_query noCredsCfg relQueryEnv
      "stable/foo" "1.2.3" ⟨"", "", "stable/foo", ""⟩ "stable" "foo" [queryEntry]
      queryEntry queryRepo relIndex ⟨["charts/foo-1.2.3.tgz?extra=y"]⟩
      "charts/foo-1.2.3.tgz?extra=y" [] ⟨"", "", "charts/foo-1.2.3.tgz", "extra=y"⟩
      ⟨"https", "example.com", "/repo", "token=x"⟩
      (by decide) (by decide) (by decide) (by decide) (by decide) (by decide)
      (by decide) (by decide) (by decide) (by decide) (by decide) (by decide)).trans
     (by decide)⟩

/-- C8: on the shorthand path, a matched version entry with an empty
candidate-URL list yields the distinct no-downloadable-URL error, and
otherwise the outcome of resolution is a function of the first candidate
URL alone — two environments whose index lookups agree on the first
candidate but differ in the later candidates resolve identically. -/
theorem shorthand_uses_only_first_candidate (c : ChartDownloader) (env env' : Env)
    (ref version : String) (u : URL) (rn cn : String) (repos : List Entry)
    (rc : Entry) (r : ChartRepository) (i : IndexFile)
    (hp : parseURL ref = some u)
    (habs : ¬(u.scheme ≠ "" ∧ u.host ≠ "" ∧ u.path ≠ ""))
    (hsplit : splitN2 u.path "/" = [rn, cn])
    (hrf : env.repoFile = .ok repos)
    (hpick : pickChartRepositoryConfigByName rn repos = .ok rc)
    (hncr : newChartRepository rc = .ok r)
    (hli : env.loadIndex r.configName = .ok i)
    (hrf' : env'.repoFile = .ok repos)
    (hli' : env'.loadIndex r.configName = .ok i) :
    (∀ cv, env.indexGet i cn version = .ok cv → cv.urls = [] →
        (resolveChartVersionAndGetRepo c env ref version).err
          = some (.msg ("chart \x22" ++ ref ++ "\x22 has no downloadable URLs")))
    ∧ (∀ url0 rest rest',
        env.indexGet i cn version = .ok ⟨url0 :: rest⟩ →
        env'.indexGet i cn version = .ok ⟨url0 :: rest'⟩ →
        resolveChartVersionAndGetRepo c env ref version
          = resolveChartVersionAndGetRepo c env' ref version) := by
  constructor
  · intro cv hcv hurls
    simp only [resolveChartVersionAndGetRepo, hp, hrf, habs, if_false, hsplit, hpick, hncr,
      hli, hcv, hurls]
  · intro url0 rest rest' h1 h2
    simp only [resolveChartVersionAndGetRepo, hp, hrf, hrf', habs, if_false, hsplit, hpick,
      hncr, hli, hli', h1, h2]

/-- Witness for C8: an empty candidate list gives the no-downloadable-URL
error; appending a mirror candidate after the first URL leaves resolution
unchanged. -/
theorem shorthand_first_candidate_witness :
    (resolveChartVersionAndGetRepo noCredsCfg noURLEnv "stable/foo" "1.2.3").err
      = some (.msg "chart \x22stable/foo\x22 has no downloadable URLs")
    ∧ resolveChartVersionAndGetRepo noCredsCfg relEnv "stable/foo" "1.2.3"
        = resolveChartVersionAndGetRepo noCredsCfg mirrorEnv "stable/foo" "1.2.3" :=
  ⟨by
    have h := (shorthand_uses_only_first_candidate noCredsCfg noURLEnv noURLEnv
      "stable/foo" "1.2.3" ⟨"", "", "stable/foo", ""⟩ "stable" "foo" [queryEntry]
      queryEntry queryRepo relIndex
      (by decide) (by decide) (by decide) (by decide) (by decide) (by decide)
      (by decide) (by decide) (by decide)).1 ⟨[]⟩ (by decide) (by decide)
    exact h.trans (by decide),
   (shorthand_uses_only_first_candidate noCredsCfg relEnv mirrorEnv
      "stable/foo" "1.2.3" ⟨"", "", "stable/foo", ""⟩ "stable" "foo" [queryEntry]
      queryEntry queryRepo relIndex
      (by decide) (by decide) (by decide) (by decide) (by decide) (by decide)
      (by decide) (by decide) (by decide)).2 "charts/foo-1.2.3.tgz" []
      ["https://mirror.example/foo-1.2.3.tgz"] (by decide) (by decide)⟩

/-- Helper: when resolution returns no error, `DownloadTo` runs its body on
the resolved URL, repository and getter. -/
theorem downloadTo_resolved (c : ChartDownloader) (env : Env) (eff : Effects)
    (ref version dest : String) (u : URL) (r : ChartRepository) (g : HTTPGetter)
    (herr : (resolveChartVersionAndGetRepo c env ref version).err = none)
    (hu : (resolveChartVersionAndGetRepo c env ref version).u = some u)
    (hr : (resolveChartVersionAndGetRepo c env ref version).r = some r)
    (hg : (resolveChartVersionAndGetRepo c env ref version).g = some g) :
    downloadTo c env eff ref version dest = downloadResolved c eff ref u r g dest := by
  simp only [downloadTo, herr, hu, hr, hg]

/-- C4: once resolution, the archive fetch and the archive write have
succeeded, `DownloadTo` attempts the provenance fetch exactly when the
strategy is not `VerifyNever`; when that fetch fails, the call fails exactly
under `VerifyAlways` (with the fetch-provenance error), while under
`VerifyIfPossible` or `VerifyLater` it warns and returns success with the
empty verification result and the already-persisted archive path. -/
theorem provenance_fetch_iff_not_never (c : ChartDownloader) (env : Env)
    (eff : Effects) (ref version dest : String) (u : URL) (r : ChartRepository)
    (g rcl : HTTPGetter) (data : String)
    (herr : (resolveChartVersionAndGetRepo c env ref version).err = none)
    (hu : (resolveChartVersionAndGetRepo c env ref version).u = some u)
    (hr : (resolveChartVersionAndGetRepo c env ref version).r = some r)
    (hg : (resolveChartVersionAndGetRepo c env ref version).g = some g)
    (hcl : r.client = some rcl)
    (hget : eff.get g (urlString u) = .ok data)
    (hw : eff.writeFile (filepathJoin dest (filepathBase u.path)) data = none) :
    (Event.fetchProv (urlString u ++ ".prov") ∈ (downloadTo c env eff ref version dest).1
        ↔ c.verify ≠ .never)
    ∧ (∀ e, eff.get rcl (urlString u ++ ".prov") = .error e →
        ((downloadTo c env eff ref version dest).2.err.isSome ↔ c.verify = .always)
        ∧ (c.verify = .always →
            (downloadTo c env eff ref version dest).2
              = ⟨filepathJoin dest (filepathBase u.path), some emptyVerification,
                 some (.msg ("failed to fetch provenance \x22"
                   ++ (urlString u ++ ".prov") ++ "\x22"))⟩)
        ∧ (c.verify = .ifPossible ∨ c.verify = .later →
            (downloadTo c env eff ref version dest).2
              = ⟨filepathJoin dest (filepathBase u.path), some emptyVerification, none⟩
            ∧ Event.warn ("WARNING: Verification not found for " ++ ref ++ ": " ++ e.string)
                ∈ (downloadTo c env eff ref version dest).1)) := by
  rw [downloadTo_resolved c env eff ref version dest u r g herr hu hr hg]
  simp only [downloadResolved, hget, hw, hcl]
  cases hv : c.verify with
  | never =>
    simp [VerificationStrategy.toNat]
  | ifPossible =>
    simp only [VerificationStrategy.toNat, Nat.lt_irrefl, gt_iff_lt, Nat.zero_lt_one,
      if_true, reduceIte]
    cases hpg : eff.get rcl (urlString u ++ ".prov") with
    | error e' =>
      simp_all
    | ok body =>
      cases hpw : eff.writeFile (filepathJoin dest (filepathBase u.path) ++ ".prov") body with
      | some e'' => simp_all
      | none =>
        cases hvc : eff.verifyChart (filepathJoin dest (filepathBase u.path)) c.keyring with
        | error e3 => simp_all
        | ok v => simp_all
  | always =>
    simp only [VerificationStrategy.toNat, gt_iff_lt, Nat.zero_lt_succ, if_true, reduceIte]
    cases hpg : eff.get rcl (urlString u ++ ".prov") with
    | error e' =>
      simp_all
    | ok body =>
      cases hpw : eff.writeFile (filepathJoin dest (filepathBase u.path) ++ ".prov") body with
      | some e'' => simp_all
      | none =>
        cases hvc : eff.verifyChart (filepathJoin dest (filepathBase u.path)) c.keyring with
        | error e3 => simp_all
        | ok v => simp_all
  | later =>
    simp only [VerificationStrategy.toNat, gt_iff_lt, Nat.zero_lt_succ, if_true, reduceIte]
    cases hpg : eff.get rcl (urlString u ++ ".prov") with
    | error e' =>
      simp_all
    | ok body =>
      cases hpw : eff.writeFile (filepathJoin dest (filepathBase u.path) ++ ".prov") body with
      | some e'' => simp_all
      | none => simp_all

/-- Witness for C4 under `VerifyIfPossible` with a missing provenance file:
the provenance fetch is attempted, the call still succeeds with the empty
verification and the persisted archive, and the warning is emitted. -/
theorem provenance_fetch_iff_not_never_witness :
    noProvEffects.get ⟨"https://example.com/repo", "", ""⟩
        "https://example.com/repo/foo-1.0.0.tgz.prov" = .error (.msg "404 not found")
    ∧ (Event.fetchProv "https://example.com/repo/foo-1.0.0.tgz.prov"
        ∈ (downloadTo ifPossibleCfg shortAbsEnv noProvEffects "stable/foo" "" "dst").1
      ↔ ifPossibleCfg.verify ≠ VerificationStrategy.never)
    ∧ (downloadTo ifPossibleCfg shortAbsEnv noProvEffects "stable/foo" "" "dst").2
        = ⟨"dst/foo-1.0.0.tgz", some emptyVerification, none⟩
    ∧ Event.warn "WARNING: Verification not found for stable/foo: 404 not found"
        ∈ (downloadTo ifPossibleCfg shortAbsEnv noProvEffects "stable/foo" "" "dst").1 := by
  have H := provenance_fetch_iff_not_never ifPossibleCfg shortAbsEnv noProvEffects
    "stable/foo" "" "dst" ⟨"https", "example.com", "/repo/foo-1.0.0.tgz", ""⟩
    credRepo ⟨"stable/foo", "repo-user", "repo-pass"⟩ ⟨"https://example.com/repo", "", ""⟩
    "archive-bytes" (by decide) (by decide) (by decide) (by decide) (by decide)
    (by decide) (by decide)
  have H2 := (H.2 (.msg "404 not found") (by decide)).2.2 (Or.inl rfl)
  exact ⟨by decide, H.1, H2.1, H2.2⟩

/-- Counterexample to C5 as stated: under `VerifyIfPossible` — a strategy
that is neither `VerifyNever` nor `VerifyLater` — a failed provenance fetch
makes `DownloadTo` return successfully without ever invoking the verifier:
its complete event trace contains no `verifyCall`. -/
theorem verifier_skipped_ifPossible_missing_prov :
    ifPossibleCfg.verify ≠ VerificationStrategy.never
    ∧ ifPossibleCfg.verify ≠ VerificationStrategy.later
    ∧ (downloadTo ifPossibleCfg shortAbsEnv noProvEffects "stable/foo" "" "dst").1
        = [.fetchArchive "https://example.com/repo/foo-1.0.0.tgz",
           .writeArchive "dst/foo-1.0.0.tgz",
           .fetchProv "https://example.com/repo/foo-1.0.0.tgz.prov",
           .warn "WARNING: Verification not found for stable/foo: 404 not found"]
    ∧ (downloadTo ifPossibleCfg shortAbsEnv noProvEffects "stable/foo" "" "dst").2.err
        = none := by
  refine ⟨by decide, by decide, by decide, by decide⟩

/-- C5 (amended): once the provenance file has been fetched and persisted
successfully, `DownloadTo` invokes the provenance verifier exactly when the
strategy is neither `VerifyNever` nor `VerifyLater`, and whenever the
verifier is invoked and fails, `DownloadTo` returns that error (with the nil
verification accompanying it) — fatal under every strategy that verifies,
including `VerifyIfPossible`. -/
theorem verify_invoked_iff_after_prov_persisted (c : ChartDownloader) (env : Env)
    (eff : Effects) (ref version dest : String) (u : URL) (r : ChartRepository)
    (g rcl : HTTPGetter) (data body : String)
    (herr : (resolveChartVersionAndGetRepo c env ref version).err = none)
    (hu : (resolveChartVersionAndGetRepo c env ref version).u = some u)
    (hr : (resolveChartVersionAndGetRepo c env ref version).r = some r)
    (hg : (resolveChartVersionAndGetRepo c env ref version).g = some g)
    (hcl : r.client = some rcl)
    (hget : eff.get g (urlString u) = .ok data)
    (hw : eff.writeFile (filepathJoin dest (filepathBase u.path)) data = none)
    (hpg : eff.get rcl (urlString u ++ ".prov") = .ok body)
    (hpw : eff.writeFile (filepathJoin dest (filepathBase u.path) ++ ".prov") body = none) :
    (Event.verifyCall (filepathJoin dest (filepathBase u.path)) c.keyring
        ∈ (downloadTo c env eff ref version dest).1
      ↔ (c.verify ≠ .never ∧ c.verify ≠ .later))
    ∧ (∀ e, eff.verifyChart (filepathJoin dest (filepathBase u.path)) c.keyring = .error e →
        c.verify ≠ .never → c.verify ≠ .later →
        (downloadTo c env eff ref version dest).2
          = ⟨filepathJoin dest (filepathBase u.path), none, some e⟩) := by
  rw [downloadTo_resolved c env eff ref version dest u r g herr hu hr hg]
  simp only [downloadResolved, hget, hw, hcl]
  cases hv : c.verify with
  | never =>
    simp [VerificationStrategy.toNat]
  | ifPossible =>
    simp only [VerificationStrategy.toNat, gt_iff_lt, Nat.zero_lt_one, if_true, reduceIte,
      hpg, hpw]
    cases hvc : eff.verifyChart (filepathJoin dest (filepathBase u.path)) c.keyring with
    | error e3 => simp_all
    | ok v => simp_all
  | always =>
    simp only [VerificationStrategy.toNat, gt_iff_lt, Nat.zero_lt_succ, if_true, reduceIte,
      hpg, hpw]
    cases hvc : eff.verifyChart (filepathJoin dest (filepathBase u.path)) c.keyring with
    | error e3 => simp_all
    | ok v => simp_all
  | later =>
    simp only [VerificationStrategy.toNat, gt_iff_lt, Nat.zero_lt_succ, if_true, reduceIte,
      hpg, hpw]
    simp_all

/-- Witness for the amended C5 under `VerifyIfPossible` with a failing
verifier: the verifier is invoked and its error is returned fatally. -/
theorem verify_invoked_iff_witness :
    failVerifyEffects.verifyChart "dst/foo-1.0.0.tgz" "kr" = .error (.msg "signature mismatch")
    ∧ (Event.verifyCall "dst/foo-1.0.0.tgz" "kr"
        ∈ (downloadTo ifPossibleCfg shortAbsEnv failVerifyEffects "stable/foo" "" "dst").1
      ↔ (ifPossibleCfg.verify ≠ VerificationStrategy.never
          ∧ ifPossibleCfg.verify ≠ VerificationStrategy.later))
    ∧ (downloadTo ifPossibleCfg shortAbsEnv failVerifyEffects "stable/foo" "" "dst").2
        = ⟨"dst/foo-1.0.0.tgz", none, some (.msg "signature mismatch")⟩ := by
  have H := verify_invoked_iff_after_prov_persisted ifPossibleCfg shortAbsEnv
    failVerifyEffects "stable/foo" "" "dst"
    ⟨"https", "example.com", "/repo/foo-1.0.0.tgz", ""⟩
    credRepo ⟨"stable/foo", "repo-user", "repo-pass"⟩ ⟨"https://example.com/repo", "", ""⟩
    "archive-bytes" "archive-bytes" (by decide) (by decide) (by decide) (by decide)
    (by decide) (by decide) (by decide) (by decide) (by decide)
  exact ⟨by decide, H.1,
    H.2 (.msg "signature mismatch") (by decide) (by decide) (by decide)⟩

end Downloader
